import Mathlib

/-!
Verification of the DOCX Jinja2 validation engine
(`valid_jinja2/validate_docx.py`).

Python strings are embedded as `List Char` (`Str`), Python exceptions as
explicit `Except`/constructor values, and the external docx/jinja render
boundary as an oracle (`Document.validate`) giving, per stub set, the
`ValidationResult` that `validate_with_stubbed_filters` produces for one
file.  Everything else (the quote normalizer, the sentinel undefined
value, the tolerant environment, the token-stream transform, the filter
tables, the iterative resolution loop, the result model) is translated
directly from the source.
-/

set_option linter.unusedVariables false

namespace ValidDocx

/-- Python strings, embedded as lists of characters. -/
abbrev Str := List Char

/-- The ASCII apostrophe character used by the error-message regexes. -/
def quoteC : Char := '\x27'

/-- Does `s` start with `pat`?  (Used to embed Python substring scans.) -/
def startsWithStr : Str → Str → Bool
  | [], _ => true
  | _ :: _, [] => false
  | a :: as, b :: bs => a = b && startsWithStr as bs

/-- Python's `pat in s` substring test. -/
def containsSubstr (pat : Str) : Str → Bool
  | [] => pat.isEmpty
  | c :: rest => startsWithStr pat (c :: rest) || containsSubstr pat rest

/-- Source `fix_quotes` (lines 63-79): rewrite curly double quotes to `"`,
curly single quotes to the ASCII apostrophe, and collapse the literal
five-character sequence `&amp;` (when it fits, i.e. `i + 4 < n`) to `&`. -/
def fix_quotes : Str → Str
  | [] => []
  | c :: rest =>
    if c = '“' ∨ c = '”' then '"' :: fix_quotes rest
    else if c = '‘' ∨ c = '’' then quoteC :: fix_quotes rest
    else
      match c, rest with
      | '&', 'a' :: 'm' :: 'p' :: ';' :: rest2 => '&' :: fix_quotes rest2
      | c, rest => c :: fix_quotes rest

example : fix_quotes "&amp;amp;".toList = "&amp;".toList := by decide
example : fix_quotes "&amp;".toList = "&".toList := by decide

/-! ## The `nameerror_match` regex and `extract_missing_name` (lines 27-36)

`nameerror_match` is the pattern
`\'(.*)\' (is not defined|referenced before assignment|is undefined)`
used through `re.search`: leftmost match start wins and the group `(.*)`
is greedy (and cannot cross a newline). -/

/-- The three alternative phrases of the `nameerror_match` regex. -/
def nameerrorPhrases : List Str :=
  ["is not defined".toList, "referenced before assignment".toList, "is undefined".toList]

/-- Does `rest` (the text after a candidate closing quote) complete the
regex, i.e. start with a space followed by one of the phrases? -/
def closesGroup (rest : Str) : Bool :=
  match rest with
  | ' ' :: tail => nameerrorPhrases.any (fun p => startsWithStr p tail)
  | _ => false

/-- Greedy group match: given the text after the opening quote, return the
longest newline-free prefix that is followed by a closing quote, a space
and one of the phrases (the semantics of greedy `(.*)` at a fixed start). -/
def groupGreedy : Str → Option Str
  | [] => none
  | c :: rest =>
    match (if c = '\n' then none else (groupGreedy rest).map (fun g => c :: g)) with
    | some g => some g
    | none => if c = quoteC ∧ closesGroup rest then some [] else none

/-- Leftmost `re.search` for `nameerror_match`: try each position whose
character is an opening quote, returning the first position at which the
greedy group completes. -/
def nameerror_search : Str → Option Str
  | [] => none
  | c :: rest =>
    if c = quoteC then
      match groupGreedy rest with
      | some g => some g
      | none => nameerror_search rest
    else nameerror_search rest

/-- Source `extract_missing_name` (lines 32-36): return the regex group
when the message matches, `none` when the function re-raises the error. -/
def extract_missing_name (msg : Str) : Option Str :=
  nameerror_search msg

example : extract_missing_name ("x".toList ++ [quoteC] ++ "foo".toList ++ [quoteC]
    ++ " is undefined".toList) = some "foo".toList := by decide
example : extract_missing_name "boom".toList = none := by decide

/-! ## The sentinel undefined value `CallAndDebugUndefined` (lines 82-120) -/

/-- A minimal model of Python runtime values, enough for the stub filters
and the sentinel operations. -/
inductive PyValue
  | str (s : Str)
  | int (n : Int)
  | noneV
deriving DecidableEq

/-- Python exceptions raised by the embedded fragments. -/
inductive PyExc
  | indexError (msg : Str)
deriving DecidableEq

/-- Sentinel undefined value: carries the missing name for diagnostics
(the `DebugUndefined` state that its string rendering displays). -/
structure CallAndDebugUndefined where
  undefined_name : Str
deriving DecidableEq

namespace CallAndDebugUndefined

/-- String rendering inherited from jinja2's `DebugUndefined.__str__`.
Modelled from the external jinja2 library: renders the placeholder
expression around the missing name. -/
def str_ (u : CallAndDebugUndefined) : Str :=
  '\x7b' :: '\x7b' :: ' ' :: u.undefined_name ++ [' ', '\x7d', '\x7d']

/-- `__call__` (line 87): calling the sentinel with any positional and
keyword arguments returns the sentinel itself. -/
def call (u : CallAndDebugUndefined) (pargs : List PyValue)
    (kwargs : List (Str × PyValue)) : CallAndDebugUndefined := u

/-- `__getattr__` (line 90): attribute access returns the sentinel. -/
def getattr (u : CallAndDebugUndefined) (a : Str) : CallAndDebugUndefined := u

/-- `__lt__` (line 94): `<` yields `True` for every operand. -/
def lt {α : Type} (u : CallAndDebugUndefined) (other : α) : Bool := true

/-- `__gt__` (line 97): `>` yields `False` for every operand. -/
def gt {α : Type} (u : CallAndDebugUndefined) (other : α) : Bool := false

/-- `__add__` (line 100): addition returns the sentinel. -/
def add {α : Type} (u : CallAndDebugUndefined) (other : α) : CallAndDebugUndefined := u

/-- `__sub__` (line 103): subtraction returns the sentinel. -/
def sub {α : Type} (u : CallAndDebugUndefined) (other : α) : CallAndDebugUndefined := u

/-- `__format__` (line 106): formatting returns `str(self)`. -/
def format_ (u : CallAndDebugUndefined) (y : List PyValue)
    (kwargs : List (Str × PyValue)) : Str := u.str_

/-- `number` helper (line 110). -/
def number (u : CallAndDebugUndefined) : Int := 0

/-- `as_noun` helper (line 113). -/
def as_noun (u : CallAndDebugUndefined) (y : List PyValue) : Str := u.str_

/-- `full` helper (line 117). -/
def full (u : CallAndDebugUndefined) : Str := u.str_

/-- `__getitem__ = __getattr__` alias (line 120). -/
def getitem (u : CallAndDebugUndefined) (a : Str) : CallAndDebugUndefined :=
  u.getattr a

end CallAndDebugUndefined

/-! ## The tolerant environment `DAEnvironment` (lines 39-60)

The outcome of the underlying Python lookup (`obj[argument]` or
`getattr(obj, attribute)`) is embedded explicitly: either a value, or one
of the exception classes the handlers distinguish. -/

/-- Outcome of the underlying attribute/index lookup. -/
inductive LookupResult (V : Type)
  | ok (v : V)
  | daAttributeError (msg : Str)
  | daIndexError (msg : Str)
  | attributeError (msg : Str)
  | typeError (msg : Str)
  | lookupError (msg : Str)
  | otherError (msg : Str)
deriving DecidableEq

/-- Value returned by the tolerant accessors: the resolved value, or a
fresh sentinel (`undefined(obj=missing, name=varname)` carrying the
extracted name, or `undefined(obj=obj, name=..., accesstype=...)`). -/
inductive EnvValue (V : Type)
  | val (v : V)
  | undefinedNamed (nm : Str)
  | undefinedAccess (nm : Str) (accesstype : Str)
deriving DecidableEq

/-- Source `DAEnvironment.getitem` (lines 44-51).  A raise inside the
first `except` clause propagates (it is not retried against the second
clause), hence the `Except.error` results. -/
def DAEnvironment.getitem {V : Type} (lookup : LookupResult V) (argument : Str) :
    Except Str (EnvValue V) :=
  match lookup with
  | .ok v => .ok (.val v)
  | .daAttributeError m =>
      match extract_missing_name m with
      | some nm => .ok (.undefinedNamed nm)
      | none => .error m
  | .daIndexError m =>
      match extract_missing_name m with
      | some nm => .ok (.undefinedNamed nm)
      | none => .error m
  | .attributeError _ => .ok (.undefinedAccess argument "item".toList)
  | .typeError _ => .ok (.undefinedAccess argument "item".toList)
  | .lookupError _ => .ok (.undefinedAccess argument "item".toList)
  | .otherError m => .error m

/-- Source `DAEnvironment.getattr` (lines 53-60): the second handler is a
bare `except:` catching every other exception class. -/
def DAEnvironment.getattr {V : Type} (lookup : LookupResult V) (attr_name : Str) :
    Except Str (EnvValue V) :=
  match lookup with
  | .ok v => .ok (.val v)
  | .daAttributeError m =>
      match extract_missing_name m with
      | some nm => .ok (.undefinedNamed nm)
      | none => .error m
  | .daIndexError _ => .ok (.undefinedAccess attr_name "attribute".toList)
  | .attributeError _ => .ok (.undefinedAccess attr_name "attribute".toList)
  | .typeError _ => .ok (.undefinedAccess attr_name "attribute".toList)
  | .lookupError _ => .ok (.undefinedAccess attr_name "attribute".toList)
  | .otherError _ => .ok (.undefinedAccess attr_name "attribute".toList)

/-! ## The token-stream transform `DAExtension.filter_stream` (lines 186-204) -/

/-- A lexer token: line number, token type and optional value. -/
structure Token where
  lineno : Nat
  ttype : Str
  value : Option Str
deriving DecidableEq

/-- Body of `filter_stream` with the `met_pipe` state threaded through.
Faithful to the source: `met_pipe` is reset to `False` on
`variable_begin`, and the line that would set it to `True` on a `pipe`
token is commented out in the source (lines 202-203), so nothing ever
sets it. -/
def filterStreamAux (met_pipe : Bool) : List Token → List Token
  | [] => []
  | t :: rest =>
    let met_pipe1 := if t.ttype = "variable_begin".toList then false else met_pipe
    if t.ttype = "variable_end".toList ∧ ¬ met_pipe1 then
      Token.mk t.lineno "pipe".toList none
        :: Token.mk t.lineno "name".toList (some "ampersand_filter".toList)
        :: t :: filterStreamAux met_pipe1 rest
    else
      t :: filterStreamAux met_pipe1 rest

/-- Source `DAExtension.filter_stream` (lines 190-204): transform the
token stream, starting with `met_pipe = False`. -/
def filter_stream (stream : List Token) : List Token :=
  filterStreamAux false stream

/-- Modelled from the spec: the contract of the default-filter injection
layer as the specification words it — "track whether a pipe token has
been seen since the start of the current expression; upon reaching the
end of an expression that never saw one, inject a synthetic pipe followed
by the default filter name before the expression-end token."  This
version actually sets the tracking flag on a `pipe` token. -/
def filter_stream_spec_aux (met_pipe : Bool) : List Token → List Token
  | [] => []
  | t :: rest =>
    let met_pipe1 := if t.ttype = "variable_begin".toList then false else met_pipe
    let met_pipe2 := if t.ttype = "pipe".toList then true else met_pipe1
    if t.ttype = "variable_end".toList ∧ ¬ met_pipe1 then
      Token.mk t.lineno "pipe".toList none
        :: Token.mk t.lineno "name".toList (some "ampersand_filter".toList)
        :: t :: filter_stream_spec_aux met_pipe2 rest
    else
      t :: filter_stream_spec_aux met_pipe2 rest

/-- Modelled from the spec: the whole-stream transform with the pipe
tracking active. -/
def filter_stream_spec (stream : List Token) : List Token :=
  filter_stream_spec_aux false stream

/-- The unconditional-injection transform: the pipe + default-filter pair
is emitted before every `variable_end` token, with no tracking at all. -/
def inject_all : List Token → List Token
  | [] => []
  | t :: rest =>
    if t.ttype = "variable_end".toList then
      Token.mk t.lineno "pipe".toList none
        :: Token.mk t.lineno "name".toList (some "ampersand_filter".toList)
        :: t :: inject_all rest
    else
      t :: inject_all rest

/-! ## Filter stubs and filter tables (lines 123-183, 262-304, 319-322) -/

/-- Source top-level `null_func` (line 123): `lambda *args, **kwargs:
args[0]` — with no positional argument, `args[0]` raises `IndexError`. -/
def null_func (args : List PyValue) (kwargs : List (Str × PyValue)) :
    Except PyExc PyValue :=
  match args with
  | a :: _ => .ok a
  | [] => .error (.indexError "tuple index out of range".toList)

/-- Source local `null_func` defined inside `validate_with_stubbed_filters`
(line 320): `lambda *args, **kwargs: args[0] if args else ""` — the stub
used for every discovered unknown filter. -/
def stub_null_func (args : List PyValue) (kwargs : List (Str × PyValue)) : PyValue :=
  match args with
  | a :: _ => a
  | [] => .str []

/-- Shorthand for building a list of `Str` from string literals. -/
def strs (l : List String) : List Str := l.map String.toList

/-- Key set of `builtin_jinja_filters` (lines 127-130); each key maps to
the top-level `null_func`. -/
def builtin_jinja_filter_names : List Str := strs ["round", "Decimal"]

/-- Key set of `builtin_docassemble_jinja_filters` (lines 133-183); each
key maps to the top-level `null_func` except `any` and `all`, which map
to the Python builtins of those names. -/
def builtin_docassemble_jinja_filter_names : List Str := strs
  ["ampersand_filter", "markdown", "add_separators", "inline_markdown",
   "paragraphs", "manual_line_breaks", "RichText", "groupby", "max", "min",
   "sum", "unique", "join", "attr", "selectattr", "rejectattr", "sort",
   "dictsort", "nice_number", "ordinal", "ordinal_number", "currency",
   "comma_list", "comma_and_list", "capitalize", "salutation", "alpha",
   "roman", "word", "bold", "italic", "title_case", "single_paragraph",
   "phone_number_formatted", "phone_number_in_e164", "country_name",
   "fix_punctuation", "redact", "verbatim", "map", "chain",
   "catchall_options", "catchall_label", "catchall_datatype",
   "catchall_question", "catchall_subquestion", "if_final", "any", "all"]

/-- All filter names pre-registered as stubs in the evaluation
environment (`env.filters.update` calls at lines 316-317). -/
def pre_registered_filter_names : List Str :=
  builtin_jinja_filter_names ++ builtin_docassemble_jinja_filter_names

/-- Source `get_known_filters` (lines 262-304): the static known-filters
allowlist consulted by the final warning pass. -/
def get_known_filters : List Str := strs
  ["abs", "attr", "batch", "capitalize", "center", "default", "dictsort",
   "escape", "filesizeformat", "first", "float", "forceescape", "format",
   "groupby", "indent", "int", "join", "last", "length", "list", "lower",
   "map", "max", "min", "pprint", "random", "reject", "rejectattr", "replace",
   "reverse", "round", "safe", "select", "selectattr", "slice", "sort",
   "string", "striptags", "sum", "title", "tojson", "trim", "truncate",
   "unique", "upper", "urlencode", "urlize", "wordcount", "wordwrap", "xmlattr",
   "any", "all", "enumerate", "sorted", "len",
   "ampersand_filter", "markdown", "add_separators", "inline_markdown",
   "paragraphs", "manual_line_breaks", "RichText", "nice_number", "ordinal",
   "ordinal_number", "currency", "comma_list", "comma_and_list", "salutation",
   "alpha", "roman", "word", "bold", "italic", "title_case", "single_paragraph",
   "phone_number_formatted", "phone_number_in_e164", "country_name",
   "fix_punctuation", "redact", "verbatim", "chain", "if_final",
   "catchall_options", "catchall_label", "catchall_datatype",
   "catchall_question", "catchall_subquestion", "showifdef",
   "currency_symbol", "indefinite_article", "possessify",
   "verb_past", "verb_present", "noun_plural", "noun_singular",
   "some", "indefinite", "a_preposition_b", "preposition_b",
   "capitalize_function", "section_links", "url_action",
   "interview_url", "interview_email", "static_image",
   "qr_code", "overlay_pdf", "pdf_concatenate",
   "strftime", "strptime", "today", "as_datetime", "format_date",
   "format_time", "current_datetime",
   "file_size", "mime_type", "extension", "filename",
   "float_to_currency", "percentage", "thousands"]

/-! ## `ValidationResult` (lines 207-259) -/

/-- Source `ValidationResult`: fatal syntax errors (ordered), unknown
filters (a set, embedded as a duplicate-free list) and other warnings. -/
structure ValidationResult where
  syntax_errors : List Str
  unknown_filters : List Str
  warnings : List Str
deriving DecidableEq

/-- `has_errors` property (lines 215-218). -/
def ValidationResult.has_errors (r : ValidationResult) : Bool :=
  !r.syntax_errors.isEmpty

/-- `has_warnings` property (lines 220-223). -/
def ValidationResult.has_warnings (r : ValidationResult) : Bool :=
  !r.warnings.isEmpty || !r.unknown_filters.isEmpty

/-- `get_error_message` (lines 237-241): `None` without errors, otherwise
the syntax errors joined by blank lines. -/
def ValidationResult.get_error_message (r : ValidationResult) : Option Str :=
  if r.has_errors then some (List.intercalate "\n\n".toList r.syntax_errors)
  else none

/-! ## `validate_with_stubbed_filters` (lines 307-344)

The body builds the environment, registers the stubs and calls the
external docx/jinja renderer inside a `try`.  The render call's outcome
is embedded explicitly; the function's own control flow (the two
`except` clauses) is translated directly. -/

/-- Outcome of the external `DocxTemplate(...).render({}, jinja_env=env)`
call: success, a `jinja2.exceptions.TemplateSyntaxError` (with its
optional `docx_context` attribute), or any other exception (carrying the
text `traceback.format_exc()` renders). -/
inductive RenderOutcome
  | success
  | templateSyntaxError (msg : Str) (docx_context : List Str)
  | otherException (tb : Str)
deriving DecidableEq

/-- Source `validate_with_stubbed_filters` exception boundary (lines
311-344): success returns the empty result; a `TemplateSyntaxError`
becomes one syntax error (with the context block appended when
`docx_context` is non-empty); any other exception becomes one
`Validation with stubbed filters failed:` syntax error. -/
def validate_with_stubbed_filters (outcome : RenderOutcome) : ValidationResult :=
  match outcome with
  | .success => ⟨[], [], []⟩
  | .templateSyntaxError msg ctx =>
      let error_msg :=
        if ctx.isEmpty then msg
        else msg ++ "\n\nContext:\n".toList
          ++ List.intercalate "\n".toList (ctx.map (fun x => "  ".toList ++ x))
      ⟨[error_msg], [], []⟩
  | .otherException tb =>
      ⟨["Validation with stubbed filters failed: ".toList ++ tb], [], []⟩

/-! ## The iterative resolution loop `get_jinja_errors_with_warnings`
(lines 365-436)

One docx file is abstracted as an oracle: `validate` gives the
`ValidationResult` that `validate_with_stubbed_filters(the_file, S)`
produces for each stub set `S` (the external docx/jinja render decides
it), and `raw_filters` is the set `extract_filters_from_docx(the_file)`
returns.  The loop itself is translated line by line. -/

/-- One docx file, seen through the two external calls the loop makes. -/
structure Document where
  validate : List Str → ValidationResult
  raw_filters : List Str

/-- The substring tested by `"No filter named" in error` (line 393). -/
def noFilterSub : Str := "No filter named".toList

/-- The prefix of the `No filter named '([^']+)'` extraction regex
(line 411): the plain substring followed by a space and an opening
quote. -/
def noFilterMsgPat : Str := noFilterSub ++ [' ', quoteC]

/-- Build the message `No filter named 'nm'` that jinja2 produces for an
unregistered filter `nm` (modelled from the external jinja2 library's
`TemplateSyntaxError` text that the loop's regex parses). -/
def mkNoFilterMsg (nm : Str) : Str := noFilterMsgPat ++ nm ++ [quoteC]

/-- The `ValidationResult` holding exactly one `No filter named 'nm'`
syntax error — what `validate_with_stubbed_filters` returns when the
render aborts on the unknown filter `nm`. -/
def mkNoFilterResult (nm : Str) : ValidationResult :=
  ⟨[mkNoFilterMsg nm], [], []⟩

/-- `re.search(r"No filter named '([^']+)'", error)` (line 411), returning
the group: find the leftmost occurrence of the prefix, take the maximal
run of non-quote characters after it, and require that run to be
non-empty and closed by a quote; otherwise retry further right. -/
def extractFilterName : Str → Option Str
  | [] => none
  | c :: rest =>
    if startsWithStr noFilterMsgPat (c :: rest) then
      let suffix := (c :: rest).drop noFilterMsgPat.length
      let nm := suffix.takeWhile (fun ch => ch ≠ quoteC)
      if nm.length ≠ 0 ∧ nm.length < suffix.length then some nm
      else extractFilterName rest
    else extractFilterName rest

example : extractFilterName (mkNoFilterMsg "foo".toList) = some "foo".toList := by decide
example : extractFilterName "nothing here".toList = none := by decide

/-- Lines 399-402: append each error not yet in the `all_syntax_errors`
set to both the set and `result.syntax_errors`, in order. -/
def addNewErrors : List Str → List Str → List Str → List Str × List Str
  | [], seen, acc => (seen, acc)
  | e :: rest, seen, acc =>
      if e ∈ seen then addNewErrors rest seen acc
      else addNewErrors rest (e :: seen) (acc ++ [e])

/-- Lines 409-416: extract a filter name from each filter error and add
the unseen ones to `all_unknown_filters`; the Bool is
`found_new_filter`. -/
def addNewFilters : List Str → List Str → Bool → List Str × Bool
  | [], unk, found => (unk, found)
  | e :: rest, unk, found =>
      match extractFilterName e with
      | some nm =>
          if nm ∈ unk then addNewFilters rest unk found
          else addNewFilters rest (unk ++ [nm]) true
      | none => addNewFilters rest unk found

/-- State carried across loop iterations: the growing stub set, the
deduplication set of error texts, the ordered `result.syntax_errors`, the
break flag, and the number of iterations executed. -/
structure LoopState where
  all_unknown_filters : List Str
  all_syntax_errors : List Str
  result_errors : List Str
  done : Bool
  iters : Nat
deriving DecidableEq

/-- One iteration of the loop body (lines 380-425), executed while the
break flag is unset. -/
def loop_step (doc : Document) (st : LoopState) : LoopState :=
  let vr := doc.validate st.all_unknown_filters
  if ¬ vr.has_errors then
    { st with done := true, iters := st.iters + 1 }
  else
    let filter_errors := vr.syntax_errors.filter (fun e => containsSubstr noFilterSub e)
    let other_errors := vr.syntax_errors.filter (fun e => ¬ containsSubstr noFilterSub e)
    let p := addNewErrors other_errors st.all_syntax_errors st.result_errors
    if filter_errors.isEmpty then
      { st with all_syntax_errors := p.1, result_errors := p.2,
                done := true, iters := st.iters + 1 }
    else
      let q := addNewFilters filter_errors st.all_unknown_filters false
      if ¬ q.2 then
        let p2 := addNewErrors filter_errors p.1 p.2
        { all_unknown_filters := q.1, all_syntax_errors := p2.1,
          result_errors := p2.2, done := true, iters := st.iters + 1 }
      else
        { all_unknown_filters := q.1, all_syntax_errors := p.1,
          result_errors := p.2, done := false, iters := st.iters + 1 }

/-- The bounded `for iteration in range(max_iterations)` driver: run the
body until the break flag is set or the fuel runs out. -/
def run_loop (doc : Document) : Nat → LoopState → LoopState
  | 0, st => st
  | fuel + 1, st => if st.done then st else run_loop doc fuel (loop_step doc st)

/-- `max_iterations = 10` (line 378). -/
def max_iterations : Nat := 10

/-- The loop state after the bounded loop, starting from the empty
state. -/
def loop_final_state (doc : Document) : LoopState :=
  run_loop doc max_iterations ⟨[], [], [], false, 0⟩

/-- Python `set.add`-style insertion into a duplicate-free list. -/
def insertSet (l : List Str) (x : Str) : List Str :=
  if x ∈ l then l else l ++ [x]

/-- `all_unknown_filters.update(raw_filters)` (line 428). -/
def setUnion (a b : List Str) : List Str := b.foldl insertSet a

/-- Source `get_jinja_errors_with_warnings` (lines 365-436): run the
bounded loop, union the raw-scan filters in, and keep as warnings the
names absent from the static allowlist. -/
def get_jinja_errors_with_warnings (doc : Document) : ValidationResult :=
  let st := loop_final_state doc
  let all_unknown := setUnion st.all_unknown_filters doc.raw_filters
  { syntax_errors := st.result_errors
    unknown_filters := all_unknown.filter (fun nm => ¬ nm ∈ get_known_filters)
    warnings := [] }

/-- Source `get_jinja_errors` (lines 439-445): the legacy entry point
returns only the combined error message. -/
def get_jinja_errors (doc : Document) : Option Str :=
  (get_jinja_errors_with_warnings doc).get_error_message

/-! ## Concrete documents used by the claim analyses -/

/-- Oracle of a document whose expressions use exactly the unknown
filters `S` (in document order) and contain no other syntax error: an
evaluation attempt with stub set `L` aborts on the first filter of `S`
not yet stubbed, and succeeds once all of `S` is stubbed (the evaluator
reports one missing filter at a time, left to right). -/
def first_missing_result (S : List Str) (L : List Str) : ValidationResult :=
  match S.find? (fun f => ¬ f ∈ L) with
  | some f => mkNoFilterResult f
  | none => ⟨[], [], []⟩

/-- A document using the unknown filters `S` whose raw lexical scan
returns `raw`. -/
def plain_filter_doc (S raw : List Str) : Document :=
  ⟨first_missing_result S, raw⟩

/-- A document that applies one registered filter `nm`: every evaluation
attempt succeeds (the filter is present in the environment's filter
table), and the raw lexical scan finds `nm`. -/
def registered_filter_doc (nm : Str) : Document :=
  ⟨fun _ => ⟨[], [], []⟩, [nm]⟩

/-- A document with one non-filter syntax error. -/
def bad_doc : Document :=
  ⟨fun _ => ⟨["bad".toList], [], []⟩, []⟩

/-- Ten distinct filter names used by the adversarial always-fresh
document. -/
def fresh_names : List Str :=
  strs ["fa", "fb", "fc", "fd", "fe", "ff", "fg", "fh", "fi", "fj"]

/-- An adversarial document that reports a brand-new unknown filter name
on every evaluation attempt: with `k` filters stubbed so far it aborts on
the `k`-th name of `fresh_names`. -/
def always_fresh_doc : Document :=
  ⟨fun L => mkNoFilterResult (fresh_names.getD L.length "zz".toList), []⟩

/-- Sum of the lengths of a list of strings. -/
def sumLens (L : List Str) : Nat := (L.map List.length).sum

/-- A fresh filter name for stub set `L`: one `f` followed by one `g` per
character appearing in `L`.  Its length strictly exceeds the length of
every member of `L`, so it is never in `L`. -/
def freshName (L : List Str) : Str :=
  'f' :: List.replicate (sumLens L) 'g'

/-- An always-fresh document whose freshness holds for every stub list,
not only the reachable ones. -/
def always_fresh_doc2 : Document :=
  ⟨fun L => mkNoFilterResult (freshName L), []⟩

/-- Eleven distinct filter names, one more than the iteration cap. -/
def eleven_names : List Str :=
  strs ["qa1", "qa2", "qa3", "qa4", "qa5", "qa6", "qa7", "qa8", "qa9", "qb1", "qb2"]

/-! ## Basic string lemmas -/

lemma startsWithStr_append (p t : Str) : startsWithStr p (p ++ t) = true := by
  induction p with
  | nil => rfl
  | cons a as ih => simpa [startsWithStr] using ih

lemma containsSubstr_cons (pat : Str) (c : Char) (rest : Str) :
    containsSubstr pat (c :: rest)
      = (startsWithStr pat (c :: rest) || containsSubstr pat rest) := rfl

lemma containsSubstr_append_self (p t : Str) (hp : p ≠ []) :
    containsSubstr p (p ++ t) = true := by
  match p with
  | [] => exact absurd rfl hp
  | a :: as =>
      rw [List.cons_append, containsSubstr_cons, ← List.cons_append,
        startsWithStr_append, Bool.true_or]

lemma containsSubstr_tail (pat : Str) (c : Char) (rest : Str)
    (h : containsSubstr pat (c :: rest) = false) : containsSubstr pat rest = false := by
  rw [containsSubstr_cons, Bool.or_eq_false_iff] at h
  exact h.2

/-! ## C7: the sentinel absorbs every operation -/

/-- C7 (confirmed): calling the sentinel, accessing an attribute or an
item, adding and subtracting each return the sentinel itself; formatting
returns its string rendering; `<` yields `True` and `>` yields `False`
for every operand. -/
theorem C7_sentinel_absorbs {α : Type} (u : CallAndDebugUndefined)
    (pargs y : List PyValue) (kwargs : List (Str × PyValue)) (a : Str) (x : α) :
    u.call pargs kwargs = u ∧ u.getattr a = u ∧ u.getitem a = u ∧
    u.add x = u ∧ u.sub x = u ∧
    CallAndDebugUndefined.lt u x = true ∧
    CallAndDebugUndefined.gt u x = false ∧
    u.format_ y kwargs = u.str_ :=
  ⟨rfl, rfl, rfl, rfl, rfl, rfl, rfl, rfl⟩

/-! ## C8: the filter stubs -/

/-- C8 counterexample: the top-level `null_func` — the stub behind every
pre-seeded built-in/domain filter — raises `IndexError` when called with
no positional argument instead of returning an empty value, refuting the
claim that every registered stub returns an empty value in that case. -/
theorem C8_counterexample :
    null_func [] [] = Except.error (PyExc.indexError "tuple index out of range".toList) :=
  rfl

/-- C8 (amended): every stub accepts arbitrary positional and keyword
arguments and returns its first positional argument when one is given;
with no positional argument the discovered-filter stub returns the empty
string, while the pre-seeded `null_func` raises `IndexError`. -/
theorem C8_stub_behavior (a : PyValue) (args : List PyValue)
    (kwargs : List (Str × PyValue)) :
    null_func (a :: args) kwargs = Except.ok a ∧
    stub_null_func (a :: args) kwargs = a ∧
    stub_null_func [] kwargs = PyValue.str [] ∧
    null_func [] kwargs = Except.error (PyExc.indexError "tuple index out of range".toList) :=
  ⟨rfl, rfl, rfl, rfl⟩

/-! ## C9: the validation boundary converts every failure -/

/-- C9 (confirmed): `validate_with_stubbed_filters` always returns a
result — a successful render returns the empty result, and each failure
(template syntax error or any other exception) is converted into exactly
one syntax-error record, never propagated. -/
theorem C9_boundary_conversion (msg tb : Str) (ctx : List Str) :
    validate_with_stubbed_filters RenderOutcome.success = ⟨[], [], []⟩ ∧
    (validate_with_stubbed_filters (RenderOutcome.templateSyntaxError msg ctx)).syntax_errors.length = 1 ∧
    (validate_with_stubbed_filters (RenderOutcome.templateSyntaxError msg ctx)).has_errors = true ∧
    (validate_with_stubbed_filters (RenderOutcome.otherException tb)).syntax_errors
      = ["Validation with stubbed filters failed: ".toList ++ tb] ∧
    (validate_with_stubbed_filters (RenderOutcome.otherException tb)).has_errors = true := by
  refine ⟨rfl, ?_, ?_, rfl, rfl⟩ <;>
    simp [validate_with_stubbed_filters, ValidationResult.has_errors]

/-! ## C6: the tolerant accessors -/

/-- C6 counterexample: a `DAIndexError` whose message does not match the
`is not defined / is undefined` pattern is re-raised by
`DAEnvironment.getitem` (the raise inside the first `except` clause
propagates; it is not retried against the second clause), refuting the
claim that the accessors return a value for every lookup failure. -/
theorem C6_counterexample :
    DAEnvironment.getitem (LookupResult.daIndexError (V := Unit) "boom".toList) "k".toList
      = Except.error "boom".toList := rfl

/-- C6 (amended): the accessors return a value (resolved or sentinel) for
every caught lookup failure, except that `getattr` re-raises a
`DAAttributeError` whose message the name pattern does not match, and
`getitem` re-raises a `DAAttributeError`/`DAIndexError` with an
unmatched message and also lets exception classes outside
`(AttributeError, TypeError, LookupError)` propagate. -/
theorem C6_accessors_tolerant {V : Type} (lookup : LookupResult V) (arg att : Str) :
    (∀ m, DAEnvironment.getattr lookup att = Except.error m →
        lookup = LookupResult.daAttributeError m ∧ extract_missing_name m = none) ∧
    (∀ m, DAEnvironment.getitem lookup arg = Except.error m →
        ((lookup = LookupResult.daAttributeError m ∨ lookup = LookupResult.daIndexError m) ∧
            extract_missing_name m = none) ∨
          lookup = LookupResult.otherError m) ∧
    (∀ m, lookup = LookupResult.attributeError m ∨ lookup = LookupResult.typeError m ∨
          lookup = LookupResult.lookupError m →
        DAEnvironment.getitem lookup arg = Except.ok (EnvValue.undefinedAccess arg "item".toList) ∧
        DAEnvironment.getattr lookup att
          = Except.ok (EnvValue.undefinedAccess att "attribute".toList)) := by
  refine ⟨?_, ?_, ?_⟩
  · intro m h
    cases lookup <;>
      simp only [DAEnvironment.getattr] at h <;>
      first
        | cases h
        | (rename_i m2
           rcases he : extract_missing_name m2 with _ | nm <;> rw [he] at h <;> cases h
           exact ⟨rfl, he⟩)
  · intro m h
    cases lookup <;> simp only [DAEnvironment.getitem] at h
    case daAttributeError m2 =>
      rcases he : extract_missing_name m2 with _ | nm <;> rw [he] at h <;> cases h
      exact Or.inl ⟨Or.inl rfl, he⟩
    case daIndexError m2 =>
      rcases he : extract_missing_name m2 with _ | nm <;> rw [he] at h <;> cases h
      exact Or.inl ⟨Or.inr rfl, he⟩
    case otherError m2 => cases h; exact Or.inr rfl
    all_goals cases h
  · rintro m (rfl | rfl | rfl) <;> exact ⟨rfl, rfl⟩

/-- C6 witness: instantiating the amended theorem at a concrete
unmatched `DAAttributeError`. -/
theorem C6_witness :
    LookupResult.daAttributeError (V := Unit) "boom".toList
        = LookupResult.daAttributeError "boom".toList ∧
      extract_missing_name "boom".toList = none :=
  (C6_accessors_tolerant (LookupResult.daAttributeError (V := Unit) "boom".toList)
    "k".toList "a".toList).1 "boom".toList rfl

/-! ## C3: the quote/entity normalizer -/

/-- C3 counterexample: `fix_quotes` is not idempotent — on the
double-encoded ampersand `&amp;amp;` one pass yields `&amp;` and a second
pass collapses that again to `&`. -/
theorem C3_counterexample :
    fix_quotes (fix_quotes "&amp;amp;".toList) ≠ fix_quotes "&amp;amp;".toList := by
  decide

/-- Is `c` one of the four typographic quote characters the normalizer
rewrites? -/
def isCurlyQuote (c : Char) : Bool :=
  c = '“' ∨ c = '”' ∨ c = '‘' ∨ c = '’'

lemma fix_quotes_nil : fix_quotes [] = [] := rfl

lemma fix_quotes_amp (rest2 : Str) :
    fix_quotes ('&' :: 'a' :: 'm' :: 'p' :: ';' :: rest2) = '&' :: fix_quotes rest2 := rfl

lemma fix_quotes_cons_curly1 (a : Char) (rest : Str) (h1 : a = '“' ∨ a = '”') :
    fix_quotes (a :: rest) = '"' :: fix_quotes rest := by
  rw [fix_quotes.eq_def]
  split
  · rename_i heq
    cases heq
  · rename_i c r heq
    injection heq with e1 e2
    subst e1
    subst e2
    rw [if_pos h1]

lemma fix_quotes_cons_curly2 (a : Char) (rest : Str)
    (h1 : ¬(a = '“' ∨ a = '”')) (h2 : a = '‘' ∨ a = '’') :
    fix_quotes (a :: rest) = quoteC :: fix_quotes rest := by
  rw [fix_quotes.eq_def]
  split
  · rename_i heq
    cases heq
  · rename_i c r heq
    injection heq with e1 e2
    subst e1
    subst e2
    rw [if_neg h1, if_pos h2]

lemma fix_quotes_cons_plain (a : Char) (rest : Str)
    (h1 : ¬(a = '“' ∨ a = '”')) (h2 : ¬(a = '‘' ∨ a = '’'))
    (h3 : ¬(a = '&' ∧ ∃ rest2, rest = 'a' :: 'm' :: 'p' :: ';' :: rest2)) :
    fix_quotes (a :: rest) = a :: fix_quotes rest := by
  rw [fix_quotes.eq_def]
  split
  · rename_i heq
    cases heq
  · rename_i c r heq
    injection heq with e1 e2
    subst e1
    subst e2
    rw [if_neg h1, if_neg h2]
    split
    · exact absurd ⟨rfl, _, rfl⟩ h3
    · rfl

lemma fix_quotes_no_curly :
    ∀ (n : Nat) (s : Str), s.length ≤ n → ∀ c ∈ fix_quotes s, isCurlyQuote c = false := by
  intro n
  induction n with
  | zero =>
      intro s hs c hc
      have : s = [] := List.length_eq_zero.mp (Nat.le_zero.mp hs)
      subst this
      rw [fix_quotes_nil] at hc
      exact absurd hc (List.not_mem_nil c)
  | succ n ih =>
      intro s hs c hc
      match s with
      | [] =>
          rw [fix_quotes_nil] at hc
          exact absurd hc (List.not_mem_nil c)
      | a :: rest =>
        have hr : rest.length ≤ n := by
          simpa [List.length_cons, Nat.succ_le_succ_iff] using hs
        by_cases h1 : a = '“' ∨ a = '”'
        · rw [fix_quotes_cons_curly1 a rest h1] at hc
          rcases List.mem_cons.mp hc with rfl | hmem
          · decide
          · exact ih rest hr c hmem
        · by_cases h2 : a = '‘' ∨ a = '’'
          · rw [fix_quotes_cons_curly2 a rest h1 h2] at hc
            rcases List.mem_cons.mp hc with rfl | hmem
            · decide
            · exact ih rest hr c hmem
          · by_cases h3 : a = '&' ∧ ∃ rest2, rest = 'a' :: 'm' :: 'p' :: ';' :: rest2
            · obtain ⟨rfl, rest2, rfl⟩ := h3
              rw [fix_quotes_amp] at hc
              have hr2 : rest2.length ≤ n := by
                simp only [List.length_cons] at hr
                omega
              rcases List.mem_cons.mp hc with rfl | hmem
              · decide
              · exact ih rest2 hr2 c hmem
            · rw [fix_quotes_cons_plain a rest h1 h2 h3] at hc
              rcases List.mem_cons.mp hc with rfl | hmem
              · simp only [isCurlyQuote, decide_eq_false_iff_not]
                push_neg at h1 h2 ⊢
                exact ⟨h1.1, h1.2, h2.1, h2.2⟩
              · exact ih rest hr c hmem

lemma fix_quotes_fixed (s : Str) (hcur : ∀ c ∈ s, isCurlyQuote c = false)
    (hamp : containsSubstr "&amp;".toList s = false) : fix_quotes s = s := by
  induction s with
  | nil => rfl
  | cons a rest ih =>
      have ha : isCurlyQuote a = false := hcur a (List.mem_cons_self a rest)
      simp only [isCurlyQuote, decide_eq_false_iff_not] at ha
      push_neg at ha
      have hrest : fix_quotes rest = rest :=
        ih (fun c hc => hcur c (List.mem_cons_of_mem a hc)) (containsSubstr_tail _ a rest hamp)
      by_cases h3 : a = '&' ∧ ∃ rest2, rest = 'a' :: 'm' :: 'p' :: ';' :: rest2
      · obtain ⟨rfl, rest2, rfl⟩ := h3
        exfalso
        rw [show ('&' :: 'a' :: 'm' :: 'p' :: ';' :: rest2)
              = "&amp;".toList ++ rest2 from rfl,
          containsSubstr_append_self _ _ (by decide)] at hamp
        cases hamp
      · rw [fix_quotes_cons_plain a rest (by tauto) (by tauto) h3, hrest]

/-- C3 (amended): `fix_quotes` is idempotent on every input whose
normalization no longer contains the five-character sequence `&amp;`; the
only failures of idempotence are inputs (such as the double-encoded
`&amp;amp;`) whose first pass re-exposes that sequence. -/
theorem C3_idempotent_no_amp (s : Str)
    (h : containsSubstr "&amp;".toList (fix_quotes s) = false) :
    fix_quotes (fix_quotes s) = fix_quotes s :=
  fix_quotes_fixed (fix_quotes s) (fix_quotes_no_curly s.length s le_rfl) h

/-- C3 witness: a typical expression with curly quotes and one encoded
ampersand normalizes to an `&amp;`-free string, on which the amended
idempotence theorem applies. -/
theorem C3_witness :
    containsSubstr "&amp;".toList (fix_quotes "“a” &amp; b".toList) = false ∧
      fix_quotes (fix_quotes "“a” &amp; b".toList) = fix_quotes "“a” &amp; b".toList :=
  ⟨by decide, C3_idempotent_no_amp _ (by decide)⟩

/-! ## C1: the default-filter injection -/

/-- C1 counterexample: on an expression that already contains an explicit
filter pipeline (`variable_begin`, name, `pipe`, name, `variable_end`),
the source transform still injects the synthetic pipe and
`ampersand_filter` name before the expression end (the line that would
set `met_pipe` is commented out), so it differs from the spec-modelled
transform that tracks pipes — refuting the "if and only if no pipe has
been seen" claim. -/
theorem C1_counterexample :
    filter_stream
        [⟨1, "variable_begin".toList, none⟩, ⟨1, "name".toList, some "x".toList⟩,
         ⟨1, "pipe".toList, none⟩, ⟨1, "name".toList, some "f".toList⟩,
         ⟨1, "variable_end".toList, none⟩]
      ≠ filter_stream_spec
        [⟨1, "variable_begin".toList, none⟩, ⟨1, "name".toList, some "x".toList⟩,
         ⟨1, "pipe".toList, none⟩, ⟨1, "name".toList, some "f".toList⟩,
         ⟨1, "variable_end".toList, none⟩] := by
  decide

lemma filterStreamAux_false (ts : List Token) :
    filterStreamAux false ts = inject_all ts := by
  induction ts with
  | nil => rfl
  | cons t rest ih =>
      simp only [filterStreamAux, inject_all, ite_self, not_false_iff, and_true]
      by_cases h : t.ttype = "variable_end".toList
      · simp [h, ih]
      · simp [h, ih]

/-- C1 (amended): since nothing in the source ever sets `met_pipe`, the
transform injects the synthetic pipe token and the `ampersand_filter`
name before every `variable_end` token unconditionally — an expression
with an explicit filter pipeline receives the injected default filter
too. -/
theorem C1_injects_unconditionally (stream : List Token) :
    filter_stream stream = inject_all stream :=
  filterStreamAux_false stream

/-! ## C10: the legacy entry point -/

/-- C10 (confirmed): `get_jinja_errors` returns `None` exactly when the
validation result has no syntax errors; when syntax errors exist it
returns them joined by blank lines in collection order; and the unknown
filters and warnings of a result never influence the returned message. -/
theorem C10_legacy_error_message (doc : Document) :
    (get_jinja_errors doc = none ↔ (get_jinja_errors_with_warnings doc).syntax_errors = []) ∧
    ((get_jinja_errors_with_warnings doc).syntax_errors ≠ [] →
      get_jinja_errors doc =
        some (List.intercalate "\n\n".toList (get_jinja_errors_with_warnings doc).syntax_errors)) ∧
    (∀ u w, ValidationResult.get_error_message
        ⟨(get_jinja_errors_with_warnings doc).syntax_errors, u, w⟩ = get_jinja_errors doc) := by
  unfold get_jinja_errors ValidationResult.get_error_message ValidationResult.has_errors
  cases h : (get_jinja_errors_with_warnings doc).syntax_errors with
  | nil => simp
  | cons e rest => simp

/-- C10 witness: a document with one non-filter syntax error `bad` keeps
it through the loop, and the legacy entry point returns it. -/
theorem C10_witness :
    (get_jinja_errors_with_warnings bad_doc).syntax_errors ≠ [] ∧
      get_jinja_errors bad_doc =
        some (List.intercalate "\n\n".toList (get_jinja_errors_with_warnings bad_doc).syntax_errors) :=
  ⟨by decide, (C10_legacy_error_message bad_doc).2.1 (by decide)⟩

/-! ## Lemmas about the filter-error messages and the loop body -/

lemma takeWhile_no_quote (nm : Str) (h : ¬ quoteC ∈ nm) :
    (nm ++ [quoteC]).takeWhile (fun ch => ch ≠ quoteC) = nm := by
  induction nm with
  | nil => simp [List.takeWhile]
  | cons a as ih =>
      have ha : a ≠ quoteC := fun e => h (e ▸ List.mem_cons_self a as)
      have ih2 := ih (fun hm => h (List.mem_cons_of_mem a hm))
      simp only [List.cons_append, List.takeWhile]
      simp only [ha, decide_not]
      simpa using ih2

lemma extractFilterName_found (t : Str)
    (hne : (t.takeWhile (fun ch => ch ≠ quoteC)).length ≠ 0)
    (hlt : (t.takeWhile (fun ch => ch ≠ quoteC)).length < t.length) :
    extractFilterName (noFilterMsgPat ++ t) = some (t.takeWhile (fun ch => ch ≠ quoteC)) := by
  rw [extractFilterName.eq_def]
  split
  · rename_i heq
    exact absurd heq (by simp [noFilterMsgPat, noFilterSub])
  · rename_i c rest heq
    rw [← heq]
    rw [if_pos (startsWithStr_append noFilterMsgPat t)]
    simp only [List.drop_left]
    rw [if_pos ⟨hne, hlt⟩]

lemma extractFilterName_msg (nm : Str) (h1 : nm ≠ []) (h2 : ¬ quoteC ∈ nm) :
    extractFilterName (mkNoFilterMsg nm) = some nm := by
  have ht := takeWhile_no_quote nm h2
  have := extractFilterName_found (nm ++ [quoteC])
    (by rw [ht]; simpa using h1)
    (by rw [ht]; simp)
  rw [ht] at this
  rw [mkNoFilterMsg, List.append_assoc]
  exact this

lemma containsSubstr_msg (nm : Str) :
    containsSubstr noFilterSub (mkNoFilterMsg nm) = true := by
  rw [mkNoFilterMsg, noFilterMsgPat, List.append_assoc, List.append_assoc]
  exact containsSubstr_append_self _ _ (by decide)

lemma loop_step_success (doc : Document) (st : LoopState)
    (hv : doc.validate st.all_unknown_filters = ⟨[], [], []⟩) :
    loop_step doc st = { st with done := true, iters := st.iters + 1 } := by
  unfold loop_step
  rw [hv]
  simp [ValidationResult.has_errors]

lemma loop_step_fresh (doc : Document) (st : LoopState) (nm : Str)
    (hv : doc.validate st.all_unknown_filters = mkNoFilterResult nm)
    (hmem : ¬ nm ∈ st.all_unknown_filters) (h1 : nm ≠ []) (h2 : ¬ quoteC ∈ nm) :
    loop_step doc st =
      { st with all_unknown_filters := st.all_unknown_filters ++ [nm],
                done := false, iters := st.iters + 1 } := by
  unfold loop_step
  rw [hv]
  simp only [mkNoFilterResult, ValidationResult.has_errors, List.isEmpty,
    Bool.not_true, Bool.false_eq_true, not_false_iff, if_false,
    List.filter, containsSubstr_msg nm, addNewErrors, addNewFilters,
    extractFilterName_msg nm h1 h2, if_neg hmem, Bool.not_true]
  simp [hmem]

lemma run_loop_done (doc : Document) (fuel : Nat) (st : LoopState) (h : st.done = true) :
    run_loop doc fuel st = st := by
  cases fuel with
  | zero => rfl
  | succ n => rw [run_loop, if_pos h]

/-! ## C2: the iteration cap -/

lemma run_loop_fresh (doc : Document)
    (H : ∀ L, ∃ nm, doc.validate L = mkNoFilterResult nm ∧ ¬ nm ∈ L ∧ nm ≠ [] ∧ ¬ quoteC ∈ nm) :
    ∀ (fuel : Nat) (st : LoopState), st.done = false →
      (run_loop doc fuel st).done = false ∧
      (run_loop doc fuel st).iters = st.iters + fuel ∧
      (run_loop doc fuel st).result_errors = st.result_errors := by
  intro fuel
  induction fuel with
  | zero => intro st h; exact ⟨h, rfl, rfl⟩
  | succ n ih =>
      intro st h
      rw [run_loop, if_neg (by simp [h])]
      obtain ⟨nm, hv, hmem, h1, h2⟩ := H st.all_unknown_filters
      rw [loop_step_fresh doc st nm hv hmem h1 h2]
      obtain ⟨d, i, r⟩ := ih
        { st with all_unknown_filters := st.all_unknown_filters ++ [nm],
                  done := false, iters := st.iters + 1 } rfl
      refine ⟨d, ?_, r⟩
      rw [i]
      show st.iters + 1 + n = st.iters + (n + 1)
      omega

/-- C2 (amended): on a document that reports a brand-new unknown filter
name on every evaluation attempt, the loop executes exactly the cap of 10
iterations and stops — but the cap exit records no syntax error at all:
the returned result has empty `syntax_errors` and `has_errors` false (the
discovered names surface as warnings, not errors). -/
theorem C2_cap_exit_no_error (doc : Document)
    (H : ∀ L, ∃ nm, doc.validate L = mkNoFilterResult nm ∧ ¬ nm ∈ L ∧ nm ≠ [] ∧ ¬ quoteC ∈ nm) :
    (loop_final_state doc).iters = max_iterations ∧
    (get_jinja_errors_with_warnings doc).syntax_errors = [] ∧
    (get_jinja_errors_with_warnings doc).has_errors = false := by
  obtain ⟨d, i, r⟩ := run_loop_fresh doc H max_iterations ⟨[], [], [], false, 0⟩ rfl
  have hfs : (loop_final_state doc).result_errors = [] := r
  have hse : (get_jinja_errors_with_warnings doc).syntax_errors = [] := by
    simp only [get_jinja_errors_with_warnings]
    exact hfs
  refine ⟨by simpa using i, hse, ?_⟩
  rw [ValidationResult.has_errors, hse]
  rfl

lemma length_le_sumLens (L : List Str) (x : Str) (hx : x ∈ L) : x.length ≤ sumLens L := by
  unfold sumLens
  exact List.single_le_sum (fun n _ => Nat.zero_le n) _ (List.mem_map_of_mem List.length hx)

lemma freshName_length (L : List Str) : (freshName L).length = sumLens L + 1 := by
  simp [freshName]

lemma freshName_not_mem (L : List Str) : ¬ freshName L ∈ L := by
  intro h
  have h1 := length_le_sumLens L _ h
  rw [freshName_length] at h1
  omega

lemma freshName_ne_nil (L : List Str) : freshName L ≠ [] := by
  simp [freshName]

lemma freshName_no_quote (L : List Str) : ¬ quoteC ∈ freshName L := by
  intro h
  rcases List.mem_cons.mp h with e | hm
  · exact absurd e (by decide)
  · exact absurd (List.eq_of_mem_replicate hm) (by decide)

/-- C2 witness: the amended theorem applied to the concrete always-fresh
document, whose reported name is fresh for every stub list. -/
theorem C2_witness :
    (loop_final_state always_fresh_doc2).iters = max_iterations ∧
    (get_jinja_errors_with_warnings always_fresh_doc2).syntax_errors = [] ∧
    (get_jinja_errors_with_warnings always_fresh_doc2).has_errors = false :=
  C2_cap_exit_no_error always_fresh_doc2
    (fun L => ⟨freshName L, rfl, freshName_not_mem L, freshName_ne_nil L, freshName_no_quote L⟩)

/-- C2 counterexample: the concrete always-fresh document terminates at
the cap of 10 iterations, but its result has `has_errors = false` — the
cap exit is not reported as a syntax error, refuting the second half of
the claim. -/
theorem C2_counterexample :
    (loop_final_state always_fresh_doc).iters = max_iterations ∧
    (get_jinja_errors_with_warnings always_fresh_doc).has_errors = false := by
  constructor <;> decide

/-! ## C5: suppression of pre-registered filters -/

/-- C5 counterexample: `Decimal` is pre-registered as a stub in
`builtin_jinja_filters`, yet a document that applies it is reported with
an unknown-filter warning, because the raw lexical scan finds the name
and the final allowlist pass does not contain `Decimal` — refuting the
claim that every intentionally-stubbed filter is suppressed. -/
theorem C5_counterexample :
    "Decimal".toList ∈ builtin_jinja_filter_names ∧
    "Decimal".toList ∈
      (get_jinja_errors_with_warnings (registered_filter_doc "Decimal".toList)).unknown_filters := by
  constructor <;> decide

/-- C5 (amended): a document applying one registered filter `nm` never
gets a syntax error, and gets an unknown-filter warning for `nm` exactly
when `nm` is absent from the static allowlist; every pre-registered stub
name except `Decimal` is present in the allowlist (so `Decimal` is the
one pre-registered filter that is reported). -/
theorem C5_registered_filters_suppressed (nm : Str) :
    (get_jinja_errors_with_warnings (registered_filter_doc nm)).syntax_errors = [] ∧
    (get_jinja_errors_with_warnings (registered_filter_doc nm)).unknown_filters
      = (if nm ∈ get_known_filters then [] else [nm]) ∧
    (∀ nm2, nm2 ∈ pre_registered_filter_names → nm2 ≠ "Decimal".toList →
      nm2 ∈ get_known_filters) := by
  refine ⟨rfl, ?_, by decide⟩
  show List.filter (fun x => ¬ x ∈ get_known_filters) [nm] = _
  by_cases hk : nm ∈ get_known_filters
  · simp [List.filter, hk]
  · simp [List.filter, hk]

/-- C5 witness: the amended theorem at the registered filter `markdown`,
and its allowlist clause at the pre-registered name `round`. -/
theorem C5_witness :
    (get_jinja_errors_with_warnings (registered_filter_doc "markdown".toList)).syntax_errors = [] ∧
      "round".toList ∈ get_known_filters :=
  ⟨(C5_registered_filters_suppressed "markdown".toList).1,
   (C5_registered_filters_suppressed "markdown".toList).2.2 "round".toList
     (by decide) (by decide)⟩

/-! ## C4: discovery completeness within the cap -/

lemma find?_skip (p : Str → Bool) (pref : List Str) (b : Str) (tail : List Str)
    (hpref : ∀ x ∈ pref, p x = false) (hb : p b = true) :
    (pref ++ b :: tail).find? p = some b := by
  induction pref with
  | nil =>
      simp only [List.nil_append]
      rw [List.find?_cons_of_pos _ hb]
  | cons a as ih =>
      simp only [List.cons_append]
      rw [List.find?_cons_of_neg _ (by simp [hpref a (List.mem_cons_self a as)])]
      exact ih (fun x hx => hpref x (List.mem_cons_of_mem a hx))

lemma find?_none_of_all (p : Str → Bool) (S : List Str) (h : ∀ x ∈ S, p x = false) :
    S.find? p = none := by
  rw [List.find?_eq_none]
  intro x hx
  simp [h x hx]

lemma first_missing_none (S L : List Str) (h : ∀ x ∈ S, x ∈ L) :
    first_missing_result S L = ⟨[], [], []⟩ := by
  unfold first_missing_result
  rw [find?_none_of_all _ _ (fun x hx => by simp [h x hx])]

lemma first_missing_some (A B : List Str) (b : Str) (hnd : (A ++ b :: B).Nodup) :
    first_missing_result (A ++ b :: B) A = mkNoFilterResult b := by
  have hb : ¬ b ∈ A := by
    intro hbA
    rcases List.nodup_append.mp hnd with ⟨-, -, hdisj⟩
    exact hdisj hbA (List.mem_cons_self b B)
  unfold first_missing_result
  rw [find?_skip _ A b B (fun x hx => by simp [hx]) (by simpa using hb)]

lemma setUnion_of_subset (a b : List Str) (h : ∀ x ∈ b, x ∈ a) : setUnion a b = a := by
  induction b generalizing a with
  | nil => rfl
  | cons x xs ih =>
      show List.foldl insertSet (insertSet a x) xs = a
      rw [show insertSet a x = a from if_pos (h x (List.mem_cons_self x xs))]
      exact ih a (fun y hy => h y (List.mem_cons_of_mem x hy))

lemma run_loop_discovery (S raw : List Str) (hnd : S.Nodup)
    (hgood : ∀ x ∈ S, x ≠ [] ∧ ¬ quoteC ∈ x) :
    ∀ (B A : List Str) (fuel iters : Nat), S = A ++ B → B.length + 1 ≤ fuel →
      run_loop (plain_filter_doc S raw) fuel ⟨A, [], [], false, iters⟩
        = ⟨S, [], [], true, iters + B.length + 1⟩ := by
  intro B
  induction B with
  | nil =>
      intro A fuel iters hS hfuel
      cases fuel with
      | zero => omega
      | succ n =>
        rw [run_loop, if_neg (by simp)]
        rw [loop_step_success _ _ (show (plain_filter_doc S raw).validate A = ⟨[], [], []⟩ from
          first_missing_none S A (by rw [hS]; simp))]
        rw [run_loop_done _ _ _ rfl]
        rw [hS]
        simp
  | cons b B ih =>
      intro A fuel iters hS hfuel
      cases fuel with
      | zero => omega
      | succ n =>
        rw [run_loop, if_neg (by simp)]
        have hv : (plain_filter_doc S raw).validate A = mkNoFilterResult b := by
          show first_missing_result S A = _
          rw [hS]
          exact first_missing_some A B b (hS ▸ hnd)
        have hbA : ¬ b ∈ A := by
          intro hbA
          rcases List.nodup_append.mp (hS ▸ hnd) with ⟨-, -, hdisj⟩
          exact hdisj hbA (List.mem_cons_self b B)
        have hgb := hgood b (by
          rw [hS]
          exact List.mem_append_right A (List.mem_cons_self b B))
        rw [loop_step_fresh _ _ b hv hbA hgb.1 hgb.2]
        have hS2 : S = (A ++ [b]) ++ B := by rw [hS]; simp
        have hfl : B.length + 1 ≤ n := by
          simp only [List.length_cons] at hfuel
          omega
        have hrec := ih (A ++ [b]) n (iters + 1) hS2 hfl
        show run_loop (plain_filter_doc S raw) n ⟨A ++ [b], [], [], false, iters + 1⟩ = _
        rw [hrec]
        simp only [LoopState.mk.injEq, List.length_cons, true_and]
        omega

/-- C4 (amended): for a document referencing the distinct unknown filters
`S` with no other syntax error, the claim holds provided `|S| + 1` does
not exceed the iteration cap of 10: the loop converges in exactly
`|S| + 1` iterations, the result has empty `syntax_errors`, and its
unknown-filter set is exactly `S` minus the static allowlist.  Beyond the
cap (`|S| ≥ 10`) the loop stops early and can miss filters that the raw
lexical scan does not catch. -/
theorem C4_discovery_bounded (S raw : List Str) (hnd : S.Nodup)
    (hgood : ∀ x ∈ S, x ≠ [] ∧ ¬ quoteC ∈ x)
    (hraw : ∀ x ∈ raw, x ∈ S) (hlen : S.length + 1 ≤ max_iterations) :
    (loop_final_state (plain_filter_doc S raw)).iters = S.length + 1 ∧
    (get_jinja_errors_with_warnings (plain_filter_doc S raw)).syntax_errors = [] ∧
    ∀ x, (x ∈ (get_jinja_errors_with_warnings (plain_filter_doc S raw)).unknown_filters
        ↔ x ∈ S ∧ ¬ x ∈ get_known_filters) := by
  have hfs : loop_final_state (plain_filter_doc S raw) = ⟨S, [], [], true, 0 + S.length + 1⟩ :=
    run_loop_discovery S raw hnd hgood S [] max_iterations 0 (by simp) hlen
  refine ⟨?_, ?_, ?_⟩
  · rw [hfs]
    show 0 + S.length + 1 = S.length + 1
    omega
  · simp only [get_jinja_errors_with_warnings]
    rw [hfs]
  · intro x
    simp only [get_jinja_errors_with_warnings]
    rw [hfs]
    show x ∈ (setUnion S raw).filter (fun nm => ¬ nm ∈ get_known_filters) ↔ _
    rw [setUnion_of_subset S raw hraw]
    simp [List.mem_filter]

/-- C4 witness: the amended theorem at a concrete three-filter document
with an empty raw scan. -/
theorem C4_witness :
    (loop_final_state (plain_filter_doc (strs ["qex1", "qex2", "qex3"]) [])).iters = 4 ∧
    (get_jinja_errors_with_warnings (plain_filter_doc (strs ["qex1", "qex2", "qex3"]) [])).syntax_errors = [] ∧
    ∀ x, (x ∈ (get_jinja_errors_with_warnings
          (plain_filter_doc (strs ["qex1", "qex2", "qex3"]) [])).unknown_filters
        ↔ x ∈ strs ["qex1", "qex2", "qex3"] ∧ ¬ x ∈ get_known_filters) :=
  C4_discovery_bounded (strs ["qex1", "qex2", "qex3"]) []
    (by decide) (by decide) (by decide) (by decide)

/-- C4 counterexample: a document referencing eleven distinct unknown
filters (one more than the cap allows to be discovered) whose raw scan
catches none of them: the last filter `qb2` is in `S`, absent from the
allowlist, and yet missing from the returned unknown-filter set — the set
is not `S` minus the allowlist, refuting the claim for unbounded `S`. -/
theorem C4_counterexample :
    "qb2".toList ∈ eleven_names ∧ ¬ "qb2".toList ∈ get_known_filters ∧
    ¬ "qb2".toList ∈
      (get_jinja_errors_with_warnings (plain_filter_doc eleven_names [])).unknown_filters := by
  refine ⟨by decide, by decide, by decide⟩

end ValidDocx
